import Mathlib

/-!
Verification of the 3D-protein-reconstruction notebook (`protein.ipynb`).

The notebook is a linear pipeline: `parse_pdb` reads atom coordinates from a
PDB file, `generate_views` derives three views (identity, random row
permutation, per-row axis flip), `main` stacks the views and tiles the
original as training data, `train_model` splits the rows 80/20 with a fixed
seed, and `save_pdb` writes fixed-format record lines.

Embedding conventions:
* A file is a list of its lines (strings, without the terminating newline;
  the Python float constructor strips surrounding whitespace anyway).
* Python floats are modelled by rational numbers: every numeric field the
  program reads or writes is decimal text, which the rationals represent
  exactly.
* The outcome of the random source behind `np.random.permutation` is made
  explicit as a list of row indices; the possible outcomes are exactly the
  permutations of `List.range n`.
* Numpy array shapes matter for one behaviour: `np.array([])` built from an
  empty coordinate list is one-dimensional, and `np.flip(a, axis=1)` raises
  an `AxisError` on a one-dimensional array.  The `NpArray` type records the
  shape so this failure is visible; fallible numpy calls return `Option`.
-/

/-- One coordinate row: the (x, y, z) triple appended per atom record. -/
abbrev Coord3 : Type := ℚ × ℚ × ℚ

/-- Python string slice `s[a:b]` (0-indexed, clipped to the string length). -/
def pySlice (s : String) (a b : Nat) : String :=
  String.mk ((s.data.drop a).take (b - a))

/-- Python `s.startswith(t)`: `t` is a prefix of the characters of `s`. -/
def strStartsWith (s t : String) : Bool :=
  t.data.isPrefixOf s.data

/-- Numeric value of a run of decimal digit characters, most significant first. -/
def digitsVal (l : List Char) : Nat :=
  l.foldl (fun n c => 10 * n + (c.toNat - 48)) 0

/-- Exponent tail of a Python float literal after the letter `e` or `E`:
an optional sign followed by at least one digit, consuming the whole rest. -/
def pyFloatExpTail (l : List Char) : Option Int :=
  let sgn : Int := match l with
    | '-' :: _ => -1
    | _ => 1
  let t : List Char := match l with
    | '+' :: u => u
    | '-' :: u => u
    | u => u
  let ds := t.takeWhile Char.isDigit
  let rest := t.dropWhile Char.isDigit
  if ds.isEmpty || !rest.isEmpty then none
  else some (sgn * (digitsVal ds : Int))

/-- Exponent part of a Python float literal: empty, or `e`/`E` then a signed
digit run. -/
def pyFloatExp (l : List Char) : Option Int :=
  match l with
  | [] => some 0
  | 'e' :: t => pyFloatExpTail t
  | 'E' :: t => pyFloatExpTail t
  | _ => none

/-- Exact rational value of a decimal float literal given its sign, integer
digits, fraction digits and exponent: `mantissa / 10 ^ (fraction length)
scaled by 10 ^ e`.  Built with `mkRat` on integer arithmetic so that the
kernel can evaluate it. -/
def pyFloatVal (neg : Bool) (ip fp : List Char) (e : Int) : ℚ :=
  let mant : Int :=
    (if neg then -1 else 1) * (digitsVal ip * 10 ^ fp.length + digitsVal fp)
  match e with
  | .ofNat k => mkRat (mant * 10 ^ k) (10 ^ fp.length)
  | .negSucc k => mkRat mant (10 ^ fp.length * 10 ^ (k + 1))

/-- Model of the Python `float` constructor on a string: strip surrounding
whitespace, then accept `[+|-] (digits [. digits] | . digits) [(e|E)[+|-]digits]`,
returning the exact rational value; anything else is a `ValueError`, modelled
as `none`.  (The model ignores `inf`/`nan` spellings and digit-group
underscores, which never occur in the fixed-column numeric fields of a PDB
file.) -/
def pyFloat (s : String) : Option ℚ :=
  let l0 := ((s.data.dropWhile Char.isWhitespace).reverse.dropWhile
    Char.isWhitespace).reverse
  let neg : Bool := match l0 with
    | '-' :: _ => true
    | _ => false
  let l1 : List Char := match l0 with
    | '+' :: t => t
    | '-' :: t => t
    | t => t
  let ip := l1.takeWhile Char.isDigit
  let r1 := l1.dropWhile Char.isDigit
  let fp : List Char := match r1 with
    | '.' :: t => t.takeWhile Char.isDigit
    | _ => []
  let r2 : List Char := match r1 with
    | '.' :: t => t.dropWhile Char.isDigit
    | t => t
  if ip.isEmpty && fp.isEmpty then none
  else
    match pyFloatExp r2 with
    | none => none
    | some e => some (pyFloatVal neg ip fp e)

/-- Read the three coordinates of one atom record line, exactly as the body of
the parser loop does: `float(line[30:38])`, `float(line[38:46])`,
`float(line[46:54])`.  `none` models the uncaught `ValueError`. -/
def parseLine (line : String) : Option Coord3 :=
  match pyFloat (pySlice line 30 38), pyFloat (pySlice line 38 46),
      pyFloat (pySlice line 46 54) with
  | some x, some y, some z => some (x, y, z)
  | _, _, _ => none

/-- The accumulation loop of `parse_pdb`: every line that starts with `ATOM`
contributes one coordinate row, in file order; a malformed numeric field
aborts the whole parse (uncaught exception, modelled by `none`). -/
def parse_pdb_rows : List String → Option (List Coord3)
  | [] => some []
  | line :: rest =>
    if strStartsWith line "ATOM" then
      match parseLine line, parse_pdb_rows rest with
      | some c, some cs => some (c :: cs)
      | _, _ => none
    else parse_pdb_rows rest

/-- Shape-aware model of the numpy arrays the program builds: an array of
coordinate rows is two-dimensional with three columns, except that
`np.array([])` from an empty row list is a one-dimensional empty array. -/
inductive NpArray : Type where
  | oneD (entries : List ℚ) : NpArray
  | twoD (rows : List Coord3) : NpArray
deriving DecidableEq

/-- The coordinate rows an `NpArray` holds (a one-dimensional array from an
empty coordinate list holds none). -/
def NpArray.rows : NpArray → List Coord3
  | .oneD _ => []
  | .twoD r => r

/-- Model of `np.array(coordinates)` on the list of parsed rows: the empty list gives a
one-dimensional empty array, a non-empty list an N x 3 array. -/
def npArrayOfRows (rows : List Coord3) : NpArray :=
  match rows with
  | [] => .oneD []
  | r :: rest => .twoD (r :: rest)

/-- The function `parse_pdb`: run the accumulation loop, then `np.array` on the result. -/
def parse_pdb (lines : List String) : Option NpArray :=
  (parse_pdb_rows lines).map npArrayOfRows

/-- Rows of `l` selected by the index list `σ` (out-of-range indices select
nothing; when `σ` is a permutation of `List.range l.length` this is exactly a
row permutation of `l`). -/
def applyPerm (σ : List Nat) (l : List α) : List α :=
  σ.filterMap (fun i => l[i]?)

/-- Model of `np.random.permutation(a)`: a shuffled copy of the rows of `a` along its
first axis; `σ` is the outcome drawn from the random source. -/
def npPermutation (σ : List Nat) : NpArray → NpArray
  | .oneD l => .oneD (applyPerm σ l)
  | .twoD r => .twoD (applyPerm σ r)

/-- Reversal of the three components of one row, `(x, y, z)` to `(z, y, x)`. -/
def flipRow (r : Coord3) : Coord3 :=
  (r.2.2, r.2.1, r.1)

/-- Model of `np.flip(a, axis=1)`: reverse each row of a two-dimensional array; on a
one-dimensional array, axis 1 is out of bounds and numpy raises an
`AxisError`, modelled by `none`. -/
def npFlipAxis1 : NpArray → Option NpArray
  | .oneD _ => none
  | .twoD r => some (.twoD (r.map flipRow))

/-- The function `generate_views`: view 1 is the input itself, view 2 a random row
permutation (outcome `σ`), view 3 the per-row flip; the whole call fails when
the flip raises. -/
def generate_views (σ : List Nat) (coordinates : NpArray) :
    Option (NpArray × NpArray × NpArray) :=
  let view1 := coordinates
  let view2 := npPermutation σ coordinates
  match npFlipAxis1 coordinates with
  | none => none
  | some view3 => some (view1, view2, view3)

/-- Model of `np.vstack` of the three views in `main`, in the two-dimensional case that
`main` reaches (the three views of a non-empty coordinate set are all N x 3):
the rows concatenated in order. -/
def npVstack3 (a b c : NpArray) : NpArray :=
  .twoD (a.rows ++ b.rows ++ c.rows)

/-- Model of `np.tile(original_coordinates, (3, 1))` in `main`, in the two-dimensional
case that `main` reaches: the rows repeated three times. -/
def npTile3 (a : NpArray) : NpArray :=
  .twoD (a.rows ++ a.rows ++ a.rows)

/-- One step of a linear congruential generator.  It stands in for the
pseudo-random generator behind the train/test splitter; which generator is
used is irrelevant to the claims, what matters is that its stream is a pure
function of the seed. -/
def lcgNext (s : Nat) : Nat :=
  (6364136223846793005 * s + 1442695040888963407) % 2 ^ 64

/-- Fisher-Yates style shuffle driven by generator state `s`, with explicit
fuel (one element is drawn per step). -/
def shuffleSteps : Nat → Nat → List Nat → List Nat
  | 0, _, _ => []
  | fuel + 1, s, l =>
    match l[s % l.length]? with
    | none => []
    | some x => x :: shuffleSteps fuel (lcgNext s) (l.eraseIdx (s % l.length))

/-- Modelled from the spec: the train/test split step (the library call
`train_test_split(..., test_size=0.2, random_state=42)`, whose body is not
part of this repository).  Per the spec it splits the rows into an 80/20
partition determined by a fixed partition seed: the row indices `0 .. n-1`
are shuffled by a pseudo-random generator seeded only by `random_state`. -/
def splitShuffledIdx (seed n : Nat) : List Nat :=
  shuffleSteps n (lcgNext seed) (List.range n)

/-- Number of held-out test rows for `test_size=0.2`: the ceiling of `n / 5`. -/
def nTestRows (n : Nat) : Nat :=
  (n + 4) / 5

/-- Modelled from the spec: the test-partition assignment of the split — the
first `ceil(0.2 * n)` shuffled row indices; a pure function of the seed and
the row count. -/
def testIdxOfSplit (seed n : Nat) : List Nat :=
  (splitShuffledIdx seed n).take (nTestRows n)

/-- The split step at the head of `train_model`: the partition is computed
with the fixed seed 42, so it depends only on the number of input rows and on
nothing drawn from the ambient random source. -/
def train_model_split (input_rows : List Coord3) : List Nat :=
  testIdxOfSplit 42 input_rows.length

/-- Mutable-store reading of `generate_views`, used to state that it never
writes into its argument: the store is the list of live numpy arrays, an
array is named by its index in the store, and both `np.random.permutation`
and `np.flip` allocate fresh arrays rather than writing into existing ones.
When the flip raises, the handles are lost but the store survives unchanged
except for the already-allocated permutation copy. -/
def generate_views_store (σ : List Nat) (st : List NpArray) (i : Nat) :
    List NpArray × Option (Nat × Nat × Nat) :=
  let a := st.getD i (.oneD [])
  let st1 := st ++ [npPermutation σ a]
  match npFlipAxis1 a with
  | none => (st1, none)
  | some view3 => (st1 ++ [view3], some (i, st.length, st1.length))

/-- Left-pad with spaces to a minimum width (a right-aligned Python format
field; wider content is not truncated). -/
def padLeft (s : String) (w : Nat) : String :=
  String.mk (List.replicate (w - s.length) ' ') ++ s

/-- Left-pad with zeros to a fixed number of digits. -/
def padZeros (s : String) (w : Nat) : String :=
  String.mk (List.replicate (w - s.length) '0') ++ s

/-- Nearest integer to `q * 10 ^ p` (the rounding of fixed-point formatting),
computed as the floor of `q * 10 ^ p + 1/2` on numerator and denominator. -/
def scaledRound (p : Nat) (q : ℚ) : Int :=
  (2 * q.num * (10 ^ p : Nat) + (q.den : Int)).fdiv (2 * (q.den : Int))

/-- Python fixed-point formatting of width `w` and precision `p` (the format
spec `7.3f` is `w = 7`, `p = 3`): round to `p` decimal places, print exactly
`p` digits after the point, right-align to minimum width `w`. -/
def formatFixed (w p : Nat) (q : ℚ) : String :=
  let scaled := scaledRound p q
  let sgn := if scaled < 0 then "-" else ""
  let m := scaled.natAbs
  padLeft (sgn ++ toString (m / 10 ^ p) ++ "." ++ padZeros (toString (m % 10 ^ p)) p) w

/-- One output record line of `save_pdb` for 0-based row index `i`: the
f-string writes `ATOM`, the 1-indexed atom number right-aligned to width 4,
the fixed placeholder fields `CA  ALA A   1`, the three coordinates in
`7.3f` fields, the fixed occupancy and temperature factor `1.00  0.00`, and
the element symbol `C`.  (The terminating newline of each written line is
left implicit.) -/
def save_pdb_line (i : Nat) (c : Coord3) : String :=
  "ATOM  " ++ (padLeft (toString (i + 1)) 4 ++ ("  CA  ALA A   1     " ++
  (formatFixed 7 3 c.1 ++ (" " ++ (formatFixed 7 3 c.2.1 ++ (" " ++
  (formatFixed 7 3 c.2.2 ++ "  1.00  0.00           C")))))))

/-- The `enumerate` loop of `save_pdb`, carrying the running row index. -/
def save_pdb_go (i : Nat) : List Coord3 → List String
  | [] => []
  | c :: rest => save_pdb_line i c :: save_pdb_go (i + 1) rest

/-- The function `save_pdb`: one fixed-format record line per coordinate row, in order. -/
def save_pdb (coordinates : List Coord3) : List String :=
  save_pdb_go 0 coordinates

/-- A synthetic four-atom input file: atom records carrying the coordinate
rows (0,0,0), (1,1,1), (2,2,2) and (3,3,3) in the fixed column ranges
30-38, 38-46 and 46-54 (0-indexed). -/
def sampleLines : List String :=
  ["HEADER    SYNTHETIC TEST PROTEIN",
   "ATOM" ++ String.mk (List.replicate 26 ' ') ++
     "   0.000   0.000   0.000  1.00  0.00           C",
   "ATOM" ++ String.mk (List.replicate 26 ' ') ++
     "   1.000   1.000   1.000  1.00  0.00           C",
   "ATOM" ++ String.mk (List.replicate 26 ' ') ++
     "   2.000   2.000   2.000  1.00  0.00           C",
   "ATOM" ++ String.mk (List.replicate 26 ' ') ++
     "   3.000   3.000   3.000  1.00  0.00           C",
   "END"]

/-- The four coordinate rows carried by `sampleLines`. -/
def sampleRows : List Coord3 :=
  [(0, 0, 0), (1, 1, 1), (2, 2, 2), (3, 3, 3)]

/-! ## Helper lemmas -/

theorem rows_npArrayOfRows (rows : List Coord3) : (npArrayOfRows rows).rows = rows := by
  cases rows <;> rfl

theorem filterMap_getElem_range (l : List α) :
    (List.range l.length).filterMap (fun i => l[i]?) = l := by
  induction l with
  | nil => rfl
  | cons a t ih =>
    rw [List.length_cons, List.range_succ_eq_map,
      List.filterMap_cons_some (show (fun i => (a :: t)[i]?) 0 = some a by simp),
      List.filterMap_map]
    have hfun : ((fun i => (a :: t)[i]?) ∘ fun i => i + 1) = fun i => t[i]? := by
      funext i
      simp
    rw [hfun, ih]

theorem applyPerm_perm {σ : List Nat} {l : List α}
    (h : List.Perm σ (List.range l.length)) : List.Perm (applyPerm σ l) l := by
  have h2 := List.Perm.filterMap (fun i => l[i]?) h
  rw [filterMap_getElem_range] at h2
  exact h2

theorem applyPerm_length {σ : List Nat} {l : List α}
    (h : List.Perm σ (List.range l.length)) : (applyPerm σ l).length = l.length :=
  (applyPerm_perm h).length_eq

theorem generate_views_twoD (σ : List Nat) (r : List Coord3) :
    generate_views σ (NpArray.twoD r) =
      some (NpArray.twoD r, NpArray.twoD (applyPerm σ r),
        NpArray.twoD (r.map flipRow)) := rfl

theorem generate_views_oneD (σ : List Nat) (l : List ℚ) :
    generate_views σ (NpArray.oneD l) = none := rfl

/-! ## Claims -/

/-- C1, amended: an input file with zero atom records yields the empty
one-dimensional coordinate array from the parser, and `generate_views` then
raises (`np.flip` with `axis=1` is out of bounds on a one-dimensional array)
instead of returning three empty views. -/
theorem parse_empty_and_views_raise (lines : List String)
    (h : ∀ l ∈ lines, strStartsWith l "ATOM" = false) :
    parse_pdb lines = some (NpArray.oneD []) ∧
    ∀ σ, generate_views σ (NpArray.oneD []) = none := by
  refine ⟨?_, fun σ => rfl⟩
  have hrows : parse_pdb_rows lines = some [] := by
    induction lines with
    | nil => rfl
    | cons line rest ih =>
      have h1 : strStartsWith line "ATOM" = false := h line (by simp)
      have h2 := ih fun l hl => h l (List.mem_cons_of_mem _ hl)
      simp [parse_pdb_rows, h1, h2]
  rw [parse_pdb, hrows]
  rfl

/-- C1, counterexample: the claim that `generate_views` does not raise on the
empty coordinate set fails — on a file with zero atom records the parser
returns the empty (one-dimensional) array and `generate_views` raises for
every outcome of the random source, here at the only permutation of zero
rows. -/
theorem generate_views_crashes_on_empty_parse :
    parse_pdb ["REMARK no atoms"] = some (NpArray.oneD []) ∧
    generate_views [] (NpArray.oneD []) = none :=
  ⟨by decide, rfl⟩

/-- C1, witness for the amended claim at a concrete no-atom file and a
concrete random outcome. -/
theorem parse_empty_and_views_raise_witness :
    parse_pdb ["END"] = some (NpArray.oneD []) ∧
    generate_views [] (NpArray.oneD []) = none :=
  ⟨(parse_empty_and_views_raise ["END"] (by decide)).1,
    (parse_empty_and_views_raise ["END"] (by decide)).2 []⟩

/-- C3: whenever `generate_views` returns, the third view is the row-wise
component reversal of the input — same number of rows, and row `i` of view 3
is `(z, y, x)` where row `i` of the input is `(x, y, z)`, at every index, so
the row order is unchanged. -/
theorem generate_views_flip_rows (σ : List Nat) (a : NpArray)
    (v : NpArray × NpArray × NpArray) (h : generate_views σ a = some v) :
    v.2.2.rows.length = a.rows.length ∧
    ∀ i (hi : i < a.rows.length),
      v.2.2.rows[i]? =
        some ((a.rows.get ⟨i, hi⟩).2.2, (a.rows.get ⟨i, hi⟩).2.1,
          (a.rows.get ⟨i, hi⟩).1) := by
  cases a with
  | oneD l => exact absurd h (by simp [generate_views_oneD])
  | twoD r =>
    rw [generate_views_twoD] at h
    obtain rfl : (NpArray.twoD r, NpArray.twoD (applyPerm σ r),
        NpArray.twoD (r.map flipRow)) = v := Option.some.inj h
    refine ⟨by simp [NpArray.rows], fun i hi => ?_⟩
    have hi' : i < r.length := hi
    simp only [NpArray.rows, List.getElem?_map, List.get_eq_getElem,
      List.getElem?_eq_getElem hi']
    rfl

/-- C3, witness at a concrete coordinate set and random outcome. -/
theorem generate_views_flip_rows_witness :
    (NpArray.twoD ([((1 : ℚ), (2 : ℚ), (3 : ℚ)), (4, 5, 6)].map flipRow)).rows[0]? =
      some (3, 2, 1) := by
  have h := generate_views_flip_rows [1, 0]
    (NpArray.twoD [((1 : ℚ), (2 : ℚ), (3 : ℚ)), (4, 5, 6)]) _ rfl
  have h0 := h.2 0 (by decide)
  exact h0

/-- C4: the flip transform used for view 3 is an involution on every
non-empty N x 3 coordinate set: flipping twice returns the original array. -/
theorem flip_involution (C : List Coord3) (h : C ≠ []) :
    (npFlipAxis1 (npArrayOfRows C)).bind npFlipAxis1 = some (npArrayOfRows C) := by
  match C with
  | r :: rest =>
    have hinv : flipRow ∘ flipRow = id := funext fun x => rfl
    show some (NpArray.twoD (((r :: rest).map flipRow).map flipRow)) =
      some (NpArray.twoD (r :: rest))
    rw [List.map_map, hinv, List.map_id]

/-- C4, witness at a concrete non-empty coordinate set. -/
theorem flip_involution_witness :
    (npFlipAxis1 (npArrayOfRows [((1 : ℚ), (2 : ℚ), (3 : ℚ))])).bind npFlipAxis1 =
      some (npArrayOfRows [((1 : ℚ), (2 : ℚ), (3 : ℚ))]) :=
  flip_involution [((1 : ℚ), (2 : ℚ), (3 : ℚ))] (by decide)

/-- C5: for every outcome of the random source (a permutation of the row
indices), the second view returned by `generate_views` is a row-wise
permutation of the input: same multiset of rows, each row unchanged. -/
theorem generate_views_perm_multiset (σ : List Nat) (a : NpArray)
    (v : NpArray × NpArray × NpArray) (h : generate_views σ a = some v)
    (hσ : List.Perm σ (List.range a.rows.length)) :
    List.Perm v.2.1.rows a.rows := by
  cases a with
  | oneD l => exact absurd h (by simp [generate_views_oneD])
  | twoD r =>
    rw [generate_views_twoD] at h
    obtain rfl : (NpArray.twoD r, NpArray.twoD (applyPerm σ r),
        NpArray.twoD (r.map flipRow)) = v := Option.some.inj h
    exact applyPerm_perm hσ

/-- C5, witness at a concrete coordinate set and a concrete permutation
outcome. -/
theorem generate_views_perm_multiset_witness :
    List.Perm (NpArray.twoD (applyPerm [1, 0] [((1 : ℚ), (2 : ℚ), (3 : ℚ)), (4, 5, 6)])).rows
      (NpArray.twoD [((1 : ℚ), (2 : ℚ), (3 : ℚ)), (4, 5, 6)]).rows :=
  generate_views_perm_multiset [1, 0]
    (NpArray.twoD [((1 : ℚ), (2 : ℚ), (3 : ℚ)), (4, 5, 6)]) _ rfl (by decide)

/-- Success of one line parse, spelled out field by field. -/
theorem parseLine_eq_some (l : String) (r : Coord3) :
    parseLine l = some r ↔
      pyFloat (pySlice l 30 38) = some r.1 ∧
      pyFloat (pySlice l 38 46) = some r.2.1 ∧
      pyFloat (pySlice l 46 54) = some r.2.2 := by
  obtain ⟨r1, r2, r3⟩ := r
  unfold parseLine
  rcases hx : pyFloat (pySlice l 30 38) with _ | x <;>
    rcases hy : pyFloat (pySlice l 38 46) with _ | y <;>
      rcases hz : pyFloat (pySlice l 46 54) with _ | z <;>
        simp [Prod.ext_iff]

/-- Failure of one line parse, spelled out field by field. -/
theorem parseLine_eq_none (l : String) :
    parseLine l = none ↔
      pyFloat (pySlice l 30 38) = none ∨ pyFloat (pySlice l 38 46) = none ∨
        pyFloat (pySlice l 46 54) = none := by
  unfold parseLine
  rcases hx : pyFloat (pySlice l 30 38) with _ | x <;>
    rcases hy : pyFloat (pySlice l 38 46) with _ | y <;>
      rcases hz : pyFloat (pySlice l 46 54) with _ | z <;>
        simp

/-- The accumulation loop pairs the filtered atom lines with the produced
rows, in order. -/
theorem parse_pdb_rows_forall (lines : List String) (rows : List Coord3)
    (h : parse_pdb_rows lines = some rows) :
    List.Forall₂ (fun l r => parseLine l = some r)
      (lines.filter (fun l => strStartsWith l "ATOM")) rows := by
  induction lines generalizing rows with
  | nil =>
    rw [parse_pdb_rows] at h
    obtain rfl : ([] : List Coord3) = rows := Option.some.inj h
    exact List.Forall₂.nil
  | cons line rest ih =>
    rw [parse_pdb_rows] at h
    by_cases hs : strStartsWith line "ATOM"
    · rw [if_pos hs] at h
      rcases hp : parseLine line with _ | c
      · rw [hp] at h
        cases h
      · rw [hp] at h
        rcases hr : parse_pdb_rows rest with _ | cs
        · rw [hr] at h
          cases h
        · rw [hr] at h
          obtain rfl : c :: cs = rows := Option.some.inj h
          have hfil : List.filter (fun l => strStartsWith l "ATOM") (line :: rest) =
              line :: List.filter (fun l => strStartsWith l "ATOM") rest := by
            simp [List.filter_cons, hs]
          rw [hfil]
          exact List.Forall₂.cons hp (ih cs hr)
    · rw [if_neg hs] at h
      have hfil : List.filter (fun l => strStartsWith l "ATOM") (line :: rest) =
          List.filter (fun l => strStartsWith l "ATOM") rest := by
        simp [List.filter_cons, hs]
      rw [hfil]
      exact ih rows h

/-- C2: on every well-formed input file the parser produces one coordinate
row per line beginning with the atom marker, in file order; row `i` carries
the numeric values read from character columns 31-38, 39-46 and 47-54
(1-indexed, so 0-indexed slices 30:38, 38:46, 46:54); the row count equals
the atom-record count. -/
theorem parse_pdb_atom_records (lines : List String) (a : NpArray)
    (h : parse_pdb lines = some a) :
    a.rows.length = (lines.filter (fun l => strStartsWith l "ATOM")).length ∧
    List.Forall₂
      (fun l r =>
        pyFloat (pySlice l 30 38) = some r.1 ∧
        pyFloat (pySlice l 38 46) = some r.2.1 ∧
        pyFloat (pySlice l 46 54) = some r.2.2)
      (lines.filter (fun l => strStartsWith l "ATOM")) a.rows := by
  rw [parse_pdb, Option.map_eq_some'] at h
  obtain ⟨rows, hrows, rfl⟩ := h
  rw [rows_npArrayOfRows]
  have hf := (parse_pdb_rows_forall lines rows hrows).imp
    fun l r hpr => (parseLine_eq_some l r).1 hpr
  exact ⟨hf.length_eq.symm, hf⟩

/-- C2, witness at the four-atom synthetic file. -/
theorem parse_pdb_atom_records_witness :
    (NpArray.twoD sampleRows).rows.length =
      (sampleLines.filter (fun l => strStartsWith l "ATOM")).length ∧
    List.Forall₂
      (fun l r =>
        pyFloat (pySlice l 30 38) = some r.1 ∧
        pyFloat (pySlice l 38 46) = some r.2.1 ∧
        pyFloat (pySlice l 46 54) = some r.2.2)
      (sampleLines.filter (fun l => strStartsWith l "ATOM"))
      (NpArray.twoD sampleRows).rows :=
  parse_pdb_atom_records sampleLines (NpArray.twoD sampleRows) (by decide)

/-- The accumulation loop fails exactly when some atom line fails to parse. -/
theorem parse_pdb_rows_none_iff (lines : List String) :
    parse_pdb_rows lines = none ↔
      ∃ l ∈ lines, strStartsWith l "ATOM" = true ∧ parseLine l = none := by
  induction lines with
  | nil => simp [parse_pdb_rows]
  | cons line rest ih =>
    rw [parse_pdb_rows]
    by_cases hs : strStartsWith line "ATOM"
    · rw [if_pos hs]
      rcases hp : parseLine line with _ | c <;>
        rcases hr : parse_pdb_rows rest with _ | cs <;>
          simp [hs, hp, hr, ← ih]
    · rw [if_neg hs]
      simp only [Bool.not_eq_true] at hs
      simp [hs, ih]

/-- C7: `parse_pdb` raises (and the run halts, since nothing catches the
exception) exactly when some line beginning with the atom marker has
malformed or missing numeric text in one of the three coordinate column
ranges; no other condition on matched lines makes the parser raise. -/
theorem parse_pdb_error_iff (lines : List String) :
    parse_pdb lines = none ↔
      ∃ l ∈ lines, strStartsWith l "ATOM" = true ∧
        (pyFloat (pySlice l 30 38) = none ∨ pyFloat (pySlice l 38 46) = none ∨
          pyFloat (pySlice l 46 54) = none) := by
  rw [parse_pdb, Option.map_eq_none', parse_pdb_rows_none_iff]
  simp only [parseLine_eq_none]

/-- C6: for every original coordinate set the stacked training input of
`main` (`np.vstack` of the three views) has exactly 3N rows, and the tiled
target (`np.tile(original, (3,1))`) has exactly 3N rows, whose blocks
0..N-1, N..2N-1 and 2N..3N-1 each equal the original N rows.  (Rows are
(x, y, z) triples, so both arrays have exactly 3 columns by construction.) -/
theorem main_stack_and_tile_shape (σ : List Nat) (C : List Coord3)
    (v : NpArray × NpArray × NpArray)
    (h : generate_views σ (npArrayOfRows C) = some v)
    (hσ : List.Perm σ (List.range C.length)) :
    (npVstack3 v.1 v.2.1 v.2.2).rows.length = 3 * C.length ∧
    (npTile3 (npArrayOfRows C)).rows.length = 3 * C.length ∧
    (npTile3 (npArrayOfRows C)).rows.take C.length = C ∧
    ((npTile3 (npArrayOfRows C)).rows.drop C.length).take C.length = C ∧
    (npTile3 (npArrayOfRows C)).rows.drop (2 * C.length) = C := by
  cases C with
  | nil => exact absurd h (by simp [npArrayOfRows, generate_views_oneD])
  | cons c rest =>
    rw [show npArrayOfRows (c :: rest) = NpArray.twoD (c :: rest) from rfl] at h ⊢
    rw [generate_views_twoD] at h
    obtain rfl : (NpArray.twoD (c :: rest), NpArray.twoD (applyPerm σ (c :: rest)),
        NpArray.twoD ((c :: rest).map flipRow)) = v := Option.some.inj h
    refine ⟨?_, ?_, ?_, ?_, ?_⟩
    · show ((c :: rest) ++ applyPerm σ (c :: rest) ++ (c :: rest).map flipRow).length
        = 3 * (c :: rest).length
      simp [List.length_append, applyPerm_length hσ]
      omega
    · show ((c :: rest) ++ (c :: rest) ++ (c :: rest)).length = 3 * (c :: rest).length
      simp [List.length_append]
      omega
    · show ((c :: rest) ++ (c :: rest) ++ (c :: rest)).take (c :: rest).length = c :: rest
      rw [List.append_assoc]
      exact List.take_left _ _
    · show (((c :: rest) ++ (c :: rest) ++ (c :: rest)).drop
        (c :: rest).length).take (c :: rest).length = c :: rest
      rw [List.append_assoc, List.drop_left, List.take_left]
    · show ((c :: rest) ++ (c :: rest) ++ (c :: rest)).drop
        (2 * (c :: rest).length) = c :: rest
      have h2 : 2 * (c :: rest).length = ((c :: rest) ++ (c :: rest)).length := by
        simp [List.length_append]
        omega
      rw [h2, List.drop_left]

/-- C6, witness at a concrete one-row coordinate set and the identity
outcome. -/
theorem main_stack_and_tile_shape_witness :
    (npVstack3 (NpArray.twoD [((5 : ℚ), (6 : ℚ), (7 : ℚ))])
        (NpArray.twoD (applyPerm [0] [((5 : ℚ), (6 : ℚ), (7 : ℚ))]))
        (NpArray.twoD ([((5 : ℚ), (6 : ℚ), (7 : ℚ))].map flipRow))).rows.length =
      3 * [((5 : ℚ), (6 : ℚ), (7 : ℚ))].length ∧
    (npTile3 (npArrayOfRows [((5 : ℚ), (6 : ℚ), (7 : ℚ))])).rows.length =
      3 * [((5 : ℚ), (6 : ℚ), (7 : ℚ))].length ∧
    (npTile3 (npArrayOfRows [((5 : ℚ), (6 : ℚ), (7 : ℚ))])).rows.take
      [((5 : ℚ), (6 : ℚ), (7 : ℚ))].length = [((5 : ℚ), (6 : ℚ), (7 : ℚ))] ∧
    ((npTile3 (npArrayOfRows [((5 : ℚ), (6 : ℚ), (7 : ℚ))])).rows.drop
      [((5 : ℚ), (6 : ℚ), (7 : ℚ))].length).take
      [((5 : ℚ), (6 : ℚ), (7 : ℚ))].length = [((5 : ℚ), (6 : ℚ), (7 : ℚ))] ∧
    (npTile3 (npArrayOfRows [((5 : ℚ), (6 : ℚ), (7 : ℚ))])).rows.drop
      (2 * [((5 : ℚ), (6 : ℚ), (7 : ℚ))].length) = [((5 : ℚ), (6 : ℚ), (7 : ℚ))] :=
  main_stack_and_tile_shape [0] [((5 : ℚ), (6 : ℚ), (7 : ℚ))] _ rfl (by decide)

/-- C9: the train/test partition of the split step is deterministic across
runs — it is computed from the fixed seed 42 and the input shape alone, so
two invocations of `train_model` on the training data of the same original
coordinate set produce identical partition assignments, whatever random outcome
the permutation view drew in either run. -/
theorem train_split_deterministic (C : List Coord3) (σ₁ σ₂ : List Nat)
    (v w : NpArray × NpArray × NpArray)
    (h₁ : generate_views σ₁ (npArrayOfRows C) = some v)
    (h₂ : generate_views σ₂ (npArrayOfRows C) = some w)
    (hσ₁ : List.Perm σ₁ (List.range C.length))
    (hσ₂ : List.Perm σ₂ (List.range C.length)) :
    train_model_split (npVstack3 v.1 v.2.1 v.2.2).rows =
      train_model_split (npVstack3 w.1 w.2.1 w.2.2).rows := by
  cases C with
  | nil => exact absurd h₁ (by simp [npArrayOfRows, generate_views_oneD])
  | cons c rest =>
    rw [show npArrayOfRows (c :: rest) = NpArray.twoD (c :: rest) from rfl] at h₁ h₂
    rw [generate_views_twoD] at h₁ h₂
    obtain rfl : (NpArray.twoD (c :: rest), NpArray.twoD (applyPerm σ₁ (c :: rest)),
        NpArray.twoD ((c :: rest).map flipRow)) = v := Option.some.inj h₁
    obtain rfl : (NpArray.twoD (c :: rest), NpArray.twoD (applyPerm σ₂ (c :: rest)),
        NpArray.twoD ((c :: rest).map flipRow)) = w := Option.some.inj h₂
    unfold train_model_split
    congr 1
    show ((c :: rest) ++ applyPerm σ₁ (c :: rest) ++ (c :: rest).map flipRow).length
      = ((c :: rest) ++ applyPerm σ₂ (c :: rest) ++ (c :: rest).map flipRow).length
    simp [List.length_append, applyPerm_length hσ₁, applyPerm_length hσ₂]

/-- C9, witness: two runs over the same two-row coordinate set with different
permutation outcomes produce the same test partition. -/
theorem train_split_deterministic_witness :
    train_model_split (npVstack3 (NpArray.twoD [((0 : ℚ), (0 : ℚ), (0 : ℚ)), (1, 1, 1)])
        (NpArray.twoD (applyPerm [0, 1] [((0 : ℚ), (0 : ℚ), (0 : ℚ)), (1, 1, 1)]))
        (NpArray.twoD ([((0 : ℚ), (0 : ℚ), (0 : ℚ)), (1, 1, 1)].map flipRow))).rows =
      train_model_split (npVstack3 (NpArray.twoD [((0 : ℚ), (0 : ℚ), (0 : ℚ)), (1, 1, 1)])
        (NpArray.twoD (applyPerm [1, 0] [((0 : ℚ), (0 : ℚ), (0 : ℚ)), (1, 1, 1)]))
        (NpArray.twoD ([((0 : ℚ), (0 : ℚ), (0 : ℚ)), (1, 1, 1)].map flipRow))).rows :=
  train_split_deterministic [((0 : ℚ), (0 : ℚ), (0 : ℚ)), (1, 1, 1)] [0, 1] [1, 0]
    _ _ rfl rfl (by decide) (by decide)

theorem strData_append (a b : String) : (a ++ b).data = a.data ++ b.data := by
  rw [String.congr_append]

theorem save_pdb_go_length (i : Nat) (l : List Coord3) :
    (save_pdb_go i l).length = l.length := by
  induction l generalizing i with
  | nil => rfl
  | cons c rest ih => simp [save_pdb_go, ih]

theorem save_pdb_go_getElem (i j : Nat) (l : List Coord3) (h : j < l.length) :
    (save_pdb_go i l)[j]? = some (save_pdb_line (i + j) (l.get ⟨j, h⟩)) := by
  induction l generalizing i j with
  | nil => cases h
  | cons c rest ih =>
    cases j with
    | zero => simp [save_pdb_go]
    | succ j2 =>
      rw [save_pdb_go, List.getElem?_cons_succ,
        ih (i + 1) j2 (Nat.lt_of_succ_lt_succ h)]
      have harith : i + 1 + j2 = i + (j2 + 1) := by omega
      rw [harith]
      rfl

theorem save_pdb_line_starts_ends (i : Nat) (c : Coord3) :
    (save_pdb_line i c).data.take 4 = ['A', 'T', 'O', 'M'] ∧
    (save_pdb_line i c).data.getLast? = some 'C' := by
  constructor
  · rw [save_pdb_line, strData_append]
    have h6 : ("ATOM  " : String).data = ['A', 'T', 'O', 'M', ' ', ' '] := rfl
    rw [h6]
    simp
  · rw [save_pdb_line]
    have hc : ("  1.00  0.00           C" : String).data.getLast? = some 'C' := by decide
    simp only [strData_append, List.getLast?_append, hc, Option.or_some]

/-- C8: `save_pdb` writes exactly one record line per coordinate row — line
`i` carries the 1-indexed atom number `i+1` right-aligned to width 4 and the
three coordinates in 7-character fixed fields with 3 decimal places; every
line begins with `ATOM` and ends with `C`, and on the four-atom input
(0,0,0), (1,1,1), (2,2,2), (3,3,3) the output is exactly the four record
lines shown. -/
theorem save_pdb_format (coordinates : List Coord3) :
    (save_pdb coordinates).length = coordinates.length ∧
    (∀ i (hi : i < coordinates.length),
      (save_pdb coordinates)[i]? = some (save_pdb_line i (coordinates.get ⟨i, hi⟩))) ∧
    (∀ i c, (save_pdb_line i c).data.take 4 = ['A', 'T', 'O', 'M'] ∧
      (save_pdb_line i c).data.getLast? = some 'C') ∧
    save_pdb sampleRows =
      ["ATOM     1  CA  ALA A   1       0.000   0.000   0.000  1.00  0.00           C",
       "ATOM     2  CA  ALA A   1       1.000   1.000   1.000  1.00  0.00           C",
       "ATOM     3  CA  ALA A   1       2.000   2.000   2.000  1.00  0.00           C",
       "ATOM     4  CA  ALA A   1       3.000   3.000   3.000  1.00  0.00           C"] := by
  refine ⟨save_pdb_go_length 0 coordinates, ?_, save_pdb_line_starts_ends, by decide⟩
  intro i hi
  have h := save_pdb_go_getElem 0 i coordinates hi
  rw [Nat.zero_add] at h
  exact h

/-- C8, witness: the second line of the four-atom output, with its bound
discharged at index 1. -/
theorem save_pdb_format_witness :
    (save_pdb sampleRows).length = sampleRows.length ∧
    (save_pdb sampleRows)[1]? = some (save_pdb_line 1 (sampleRows.get ⟨1, by decide⟩)) :=
  ⟨(save_pdb_format sampleRows).1, (save_pdb_format sampleRows).2.1 1 (by decide)⟩

/-- C10: `generate_views` never writes into its input array: in the
store-passing reading, the array at any live index is unchanged by the call,
on both the successful path and the path where the flip raises. -/
theorem generate_views_preserves_input (σ : List Nat) (st : List NpArray)
    (i : Nat) (h : i < st.length) :
    ((generate_views_store σ st i).1)[i]? = st[i]? := by
  rw [generate_views_store]
  cases hf : npFlipAxis1 (st.getD i (NpArray.oneD [])) with
  | none =>
    simp only [hf]
    exact List.getElem?_append_left h
  | some view3 =>
    simp only [hf]
    rw [List.getElem?_append_left (by simp; omega : i < (st ++
      [npPermutation σ (st.getD i (NpArray.oneD []))]).length)]
    exact List.getElem?_append_left h

/-- C10, witness at a concrete one-array store. -/
theorem generate_views_preserves_input_witness :
    ((generate_views_store [0] [NpArray.twoD [((1 : ℚ), (2 : ℚ), (3 : ℚ))]] 0).1)[0]? =
      ([NpArray.twoD [((1 : ℚ), (2 : ℚ), (3 : ℚ))]] : List NpArray)[0]? :=
  generate_views_preserves_input [0] [NpArray.twoD [((1 : ℚ), (2 : ℚ), (3 : ℚ))]] 0
    (by decide)
